import Mathlib

/-!
Verification of the fetch-retry-aggregate engine of `SandyWalsh/summary`
(`main.go`) against its specification.

The Go program is shallowly embedded: pure helpers become Lean functions,
external effects (HTTP transport, file reads, CSV lexing, wall-clock time) are
passed in as explicit values, Go run-time panics become an `Except GoPanic`
layer, and the concurrent worker pool is serialized (all properties proved
below are insensitive to worker interleaving, which Go leaves unspecified).
-/

set_option autoImplicit false

deriving instance DecidableEq for Except

namespace Summary

/-! ### Go standard-library primitives used by the program -/

/-- White-space predicate of Go `unicode.IsSpace`: the ASCII spaces
`'\t' '\n' '\v' '\f' '\r' ' '`, `U+0085`, `U+00A0`, and the Unicode
`White_Space` code points `U+1680`, `U+2000`-`U+200A`, `U+2028`, `U+2029`,
`U+202F`, `U+205F`, `U+3000`. -/
def goIsSpace (c : Char) : Bool :=
  let n := c.toNat
  n == 0x9 || n == 0xA || n == 0xB || n == 0xC || n == 0xD || n == 0x20 ||
    n == 0x85 || n == 0xA0 || n == 0x1680 ||
    (decide (0x2000 ≤ n) && decide (n ≤ 0x200A)) ||
    n == 0x2028 || n == 0x2029 || n == 0x202F || n == 0x205F || n == 0x3000

/-- Shallow embedding of Go `strings.TrimSpace`: remove leading and trailing
white space (per `goIsSpace`) from a string. -/
def goTrimSpace (s : String) : String :=
  ⟨((s.toList.dropWhile goIsSpace).reverse.dropWhile goIsSpace).reverse⟩

/-- Value of a list of ASCII digits read in base 10 (helper for `goAtoi`). -/
def digitsVal (ds : List Char) : Nat :=
  ds.foldl (fun acc c => 10 * acc + (c.toNat - 48)) 0

/-- Shallow embedding of Go `strconv.Atoi` (base 10, 64-bit `int`): an
optional `+`/`-` sign followed by one or more ASCII digits; the empty string,
any non-digit character, and any value outside `[-2^63, 2^63 - 1]` yield a
non-nil error, modeled as `none`. -/
def goAtoi (s : String) : Option Int :=
  let cs := s.toList
  let sd : Bool × List Char :=
    match cs with
    | '+' :: rest => (false, rest)
    | '-' :: rest => (true, rest)
    | _ => (false, cs)
  if sd.2.isEmpty then none
  else if sd.2.all (fun c => decide ('0' ≤ c ∧ c ≤ '9')) then
    let v : Int := if sd.1 then -(digitsVal sd.2 : Int) else (digitsVal sd.2 : Int)
    if -(2 ^ 63 : Int) ≤ v ∧ v ≤ 2 ^ 63 - 1 then some v else none
  else none

/-! ### Data model -/

/-- Go `url.URL` restricted to the three fields this program ever sets or
reads (`Scheme`, `Host`, `Path`).  The Go zero value is `⟨"", "", ""⟩`. -/
structure GoURL where
  scheme : String
  host : String
  path : String
deriving DecidableEq

/-- Shallow embedding of Go `net/url.URL.String()` for URLs with only
scheme/host/path set (no user info, opaque part, query, or fragment; the
percent-escaping of host and path is omitted, which is exact for the plain
ASCII locators this program builds). -/
def GoURL.str (u : GoURL) : String :=
  let startsSlash : Bool :=
    match u.path.toList with
    | [] => false
    | c :: _ => c == '/'
  let pre :=
    (if u.scheme = "" then "" else u.scheme ++ ":") ++
      (if u.scheme ≠ "" ∨ u.host ≠ "" then
        (if u.host ≠ "" ∨ u.path ≠ "" then "//" else "") ++ u.host
      else "") ++
      (if u.path ≠ "" ∧ startsSlash = false ∧ u.host ≠ "" then "/" else "")
  (if pre = "" ∧ (u.path.toList.takeWhile (fun c => !(c == '/'))).contains ':' then "./"
   else "") ++ pre ++ u.path

/-- Go `user` struct: one validated CSV record. -/
structure user where
  first : String
  last : String
  age : Int
deriving DecidableEq

/-- Go `payload` struct: the outcome of one fetch attempt.  Field defaults are
the Go zero values, so struct literals that omit fields (as the source does)
mean the same thing here.  `elapsed` is wall-clock time, external to this
model, and stays 0. -/
structure payload where
  url : GoURL := ⟨"", "", ""⟩
  users : List user := []
  numBad : Nat := 0
  err : Option String := none
  canRetry : Bool := false
  elapsed : Nat := 0
deriving DecidableEq

/-- Run-time panics of the Go program that the model tracks.  An unrecovered
panic in any goroutine aborts the whole process, so a panic anywhere makes the
surrounding computation `.error`. -/
inductive GoPanic where
  | indexOutOfRange
  | sendOnClosedChannel
deriving DecidableEq

/-- Parsed CSV contents: rows of string fields. -/
abbrev Rows := List (List String)

/-! ### makePayload -/

/-- Row loop of `makePayload` (main.go lines 77-94): trim every cell of the
row, parse the age cell `r[2]` with `strconv.Atoi`, and either skip the row
(counting it in `nbad`) or append the user.  Indexing `r[2]` panics when the
row has fewer than three cells. -/
def makeRows : List (List String) → List user → Nat → Except GoPanic (List user × Nat)
  | [], users, nbad => .ok (users, nbad)
  | r :: rs, users, nbad =>
    match r.map goTrimSpace with
    | f :: l :: a :: _ =>
      match goAtoi a with
      | none => makeRows rs users (nbad + 1)
      | some age =>
        if f = "" ∨ l = "" ∨ age = 0 then makeRows rs users (nbad + 1)
        else makeRows rs (users ++ [⟨f, l, age⟩]) nbad
    | _ => .error .indexOutOfRange

/-- Shallow embedding of `makePayload` (main.go lines 66-96).  The raw bytes
are represented by the result of the external CSV library call `parseCSV` on
them: `.error e` when `csv.ReadAll` fails, `.ok rows` otherwise.  Two quirks
of the source are carried over exactly: `p[0]` is indexed without a bounds
check (line 72), and the header-mismatch payload does not set the `url` field
(line 73), leaving it the zero URL. -/
def makePayload (url : GoURL) (parsed : Except String Rows) : Except GoPanic payload :=
  match parsed with
  | .error e => .ok { url := url, err := some e }
  | .ok p =>
    match p with
    | [] => .error .indexOutOfRange
    | hdr :: rest =>
      if String.intercalate "," hdr ≠ "fname, lname, age" then
        .ok { err := some (url.str ++ " does have proper CSV headers") }
      else
        match makeRows rest [] 0 with
        | .error e => .error e
        | .ok (users, nbad) => .ok { url := url, users := users, numBad := nbad }

/-! ### Fetchers

The transport layer (HTTP, file system) and CSV lexing are external
collaborators; each call's outcome is passed in as a value.  Raw bytes are
only ever consumed via `parseCSV`, so they are represented directly by their
parse result. -/

/-- Result of the external call `io.ReadAll(r.Body)`: failure, or the body
bytes represented by their `parseCSV` result. -/
inductive BodyRead where
  | fail (msg : String)
  | ok (csv : Except String Rows)
deriving DecidableEq

/-- Result of the external call `http.Get`: transport failure, or a response
with a status code and a body. -/
inductive HttpResult where
  | getFail (msg : String)
  | resp (status : Nat) (body : BodyRead)
deriving DecidableEq

/-- Result of the external call `os.ReadFile`: failure, or the file bytes
represented by their `parseCSV` result. -/
inductive FileResult where
  | readFail (msg : String)
  | ok (csv : Except String Rows)
deriving DecidableEq

/-- The external world one `urlFetcher` call interacts with: the outcome of
the HTTP request and of the file read for the url at hand. -/
structure World where
  http : HttpResult
  file : FileResult
deriving DecidableEq

/-- Shallow embedding of `httpFetcher` (main.go lines 99-117): status 200
parses the body, any status ≥ 500 yields `canRetry := true` (note the source
does not set `err` there), any other status a fatal error. -/
def httpFetcher (url : GoURL) (h : HttpResult) : Except GoPanic payload :=
  match h with
  | .getFail e => .ok { url := url, err := some e }
  | .resp status body =>
    if status = 200 then
      match body with
      | .fail e => .ok { url := url, err := some e }
      | .ok csv => makePayload url csv
    else if 500 ≤ status then
      .ok { url := url, canRetry := true }
    else
      .ok { url := url, err := some ("unable to load file (status code " ++ toString status ++ ")") }

/-- Shallow embedding of `fileFetcher` (main.go lines 119-125). -/
def fileFetcher (url : GoURL) (f : FileResult) : Except GoPanic payload :=
  match f with
  | .readFail e => .ok { url := url, err := some e }
  | .ok csv => makePayload url csv

/-- Shallow embedding of `urlFetcher` (main.go lines 128-136): dispatch on the
url scheme, with a fatal error for unknown schemes. -/
def urlFetcher (url : GoURL) (w : World) : Except GoPanic payload :=
  if url.scheme = "file" then fileFetcher url w.file
  else if url.scheme = "http" then httpFetcher url w.http
  else .ok { url := url, err := some ("unknown url scheme: " ++ url.scheme) }

/-! ### Result collector and the fetch/retry loop -/

/-- Go `type fetcher func(url.URL) payload`.  The model adds a cycle index
(the Go fetcher closure is impure and may answer differently when a source is
retried in a later cycle) and an `Except` layer for panics. -/
abbrev fetcherM := Nat → GoURL → Except GoPanic payload

/-- Result collector: Go's `results` struct, a mutex-guarded
`map[string]payload`, modeled as an association list with distinct keys kept
in first-insertion order.  (Go map iteration order is unspecified; every
property proved below is insensitive to this choice.) -/
abbrev Results := List (String × payload)

/-- Shallow embedding of `results.add` (main.go lines 143-148): one map
assignment keyed by `p.url.String()`, overwriting any entry with the same
key.  The stored elapsed duration is wall-clock time, external to the model,
and is not tracked. -/
def Results.add (r : Results) (p : payload) : Results :=
  if r.any (fun kv => kv.1 == p.url.str) then
    r.map (fun kv => if kv.1 == p.url.str then (p.url.str, p) else kv)
  else r ++ [(p.url.str, p)]

/-- One pool generation draining the work queue (`worker`, main.go lines
150-160): every queued url is fetched exactly once and its payload written to
the collector.  Go's concurrent workers interleave arbitrarily; the model
serializes them in queue order, which every property proved below is
insensitive to.  A panic in any worker aborts the program. -/
def drain (f : fetcherM) (cycle : Nat) (r : Results) : List GoURL → Except GoPanic Results
  | [] => .ok r
  | u :: us =>
    match f cycle u with
    | .error e => .error e
    | .ok p => drain f cycle (r.add p) us

/-- The succeeded payloads of the collector (`v.err == nil`, main.go line
196), in collector order. -/
def finalOf (r : Results) : List payload :=
  (r.filter (fun kv => kv.2.err.isNone)).map (fun kv => kv.2)

/-- The locators to requeue (`v.err != nil && v.canRetry`, main.go lines
198-199), in collector order. -/
def retryOf (r : Results) : List GoURL :=
  (r.filter (fun kv => kv.2.err.isSome && kv.2.canRetry)).map (fun kv => kv.2.url)

/-- Retry loop of `fetch` (main.go lines 179-209), fuel-indexed.  The channel
`ch` is created once (line 167) but closed at the end of every cycle (line
189); therefore on every cycle after the first, `chClosed` is true and the
first send `ch <- url` panics (the loop only repeats when `remaining` is
non-empty).  `cycle` counts pool generations starting at 1.  `none` means the
fuel ran out before the loop settled; `fetchLoop_eq_fetch` shows two units of
fuel always suffice. -/
def fetchLoop (f : fetcherM) :
    Nat → Bool → Results → List GoURL → Nat →
    Option (Except GoPanic (Results × List payload × Nat))
  | 0, _, _, _, _ => none
  | fuel + 1, chClosed, r, remaining, cycle =>
    if chClosed ∧ remaining ≠ [] then some (.error .sendOnClosedChannel)
    else
      match drain f cycle r remaining with
      | .error e => some (.error e)
      | .ok r' =>
        if retryOf r' = [] then some (.ok (r', finalOf r', cycle))
        else fetchLoop f fuel true r' (retryOf r') (cycle + 1)

/-- Shallow embedding of `fetch` (main.go lines 164-217) in collapsed form:
because every cycle after the first panics on the first send to the closed
channel, the loop either settles within its first cycle or aborts the
program.  `fetchLoop_eq_fetch` proves this collapse exact.  The model returns
the collector's final contents (exposed for specification; Go keeps it
internal), the succeeded payloads (what Go returns), and the number of
completed pool cycles. -/
def fetch (urls : List GoURL) (f : fetcherM) :
    Except GoPanic (Results × List payload × Nat) :=
  match drain f 1 [] urls with
  | .error e => .error e
  | .ok r' =>
    if retryOf r' = [] then .ok (r', finalOf r', 1) else .error .sendOnClosedChannel

/-- Two units of fuel always settle the retry loop, and its value is the
collapsed `fetch`: the source's retry cycling can never complete a second
cycle. -/
theorem fetchLoop_eq_fetch (f : fetcherM) (urls : List GoURL) (fuel : Nat) :
    fetchLoop f (fuel + 2) false [] urls 1 = some (fetch urls f) := by
  show fetchLoop f (fuel + 1 + 1) false [] urls 1 = some (fetch urls f)
  rw [fetchLoop, fetch]
  cases hd : drain f 1 [] urls with
  | error e => simp
  | ok r' =>
    by_cases hr : retryOf r' = []
    · simp [hr]
    · simp [hr, fetchLoop]

/-! ### Aggregation -/

/-- The values `summarize` (main.go lines 246-271) logs, returned as data. -/
structure summary where
  count : Nat
  mean : Option Int := none
  median : Option Int := none
  tied : List user := []
deriving DecidableEq

/-- Shallow embedding of `summarize` (main.go lines 246-271).
* `t` is the sum of ages, modeled exactly (the Go `int` accumulator wraps at
  2^63, which the model does not track; exact below that).
* `mean` embeds `int(float64(t) / float64(n))`, i.e. rounded division then
  truncation toward zero: this equals `Int.tdiv t n` whenever `|t| < 2^53`
  (both operands are then exact in float64, and rounding the quotient to
  nearest cannot cross an integer, since that would need `|t - n*k| < n*k/2^53`
  with `n*k` within one of `|t|`, impossible for `|t| ≤ 2^53 - 1`).
* `mid` embeds `int(math.Ceil(float64(n) / 2))` as `(n + 1) / 2`, exact for
  `n < 2^53` since division by 2 is exact in binary floating point.
* `sort.Ints` sorts in place; any comparison sort of a list of integers
  yields the same sorted list, modeled by insertion sort.
* `ages[mid]` is guarded by `mid < len(ages)`, so the `getD` default is never
  used. -/
def summarize (u : List user) : summary :=
  if u.length = 0 then { count := 0 }
  else
    let n := u.length
    let t : Int := (u.map user.age).sum
    let ages := List.insertionSort (· ≤ ·) (u.map user.age)
    let mean := Int.tdiv t (n : Int)
    let mid := (n + 1) / 2
    if mid < ages.length then
      let median := ages.getD mid 0
      { count := n, mean := some mean, median := some median,
        tied := u.filter (fun x => x.age == median) }
    else
      { count := n, mean := some mean }

/-! ### Concrete locators and fetchers used in closed statements -/

/-- An HTTP locator. -/
def uH : GoURL := ⟨"http", "example.com", "/a.csv"⟩

/-- A file locator, as `loadIndex` builds them. -/
def uF1 : GoURL := ⟨"file", "data", "f1.csv"⟩

/-- A second, distinct file locator. -/
def uF2 : GoURL := ⟨"file", "data", "f2.csv"⟩

/-- The payload the source produces for any HTTP status ≥ 500: `canRetry`
set, but `err` (and `users`) left at their zero values. -/
def retryPayload (u : GoURL) : payload := { url := u, canRetry := true }

/-- A fetcher that fails with a retryable error on cycles 1 and 2 and
succeeds from cycle 3 on — the scenario of claim C2. -/
def failTwiceFetcher : fetcherM := fun cycle u =>
  if cycle ≤ 2 then .ok { url := u, err := some "transient error", canRetry := true }
  else .ok { url := u, users := [⟨"Ann", "Lee", 30⟩] }

/-- A world whose file read yields the CSV rows `[["a","b","c"]]`: a
malformed header. -/
def badHeaderWorld : World := ⟨.getFail "unused", .ok (.ok [["a", "b", "c"]])⟩

/-- A world whose file read succeeds with zero CSV rows (e.g. an empty
file). -/
def emptyCsvWorld : World := ⟨.getFail "unused", .ok (.ok [])⟩

/-! ### Helper lemmas about the collector and the drain loop -/

/-- Membership after a map write: the entry is an old one or the new pair. -/
theorem Results.add_mem {r : Results} {p : payload} {kv : String × payload}
    (h : kv ∈ r.add p) : kv ∈ r ∨ kv = (p.url.str, p) := by
  unfold Results.add at h
  split at h
  · rcases List.mem_map.1 h with ⟨kv', hkv', heq⟩
    by_cases hk : kv'.1 == p.url.str
    · right; rw [if_pos hk] at heq; exact heq.symm
    · left; rw [if_neg hk] at heq; exact heq ▸ hkv'
  · rcases List.mem_append.1 h with h' | h'
    · exact Or.inl h'
    · right; simpa using h'

/-- Any property of payloads guaranteed by the fetcher holds for every entry
the drain loop leaves in the collector. -/
theorem drain_invariant (Q : payload → Prop) (f : fetcherM) (c : Nat)
    (hf : ∀ v p, f c v = .ok p → Q p) :
    ∀ us r0 r', (∀ kv ∈ r0, Q kv.2) → drain f c r0 us = .ok r' →
      ∀ kv ∈ r', Q kv.2 := by
  intro us
  induction us with
  | nil =>
    intro r0 r' h0 hd
    cases hd
    exact h0
  | cons u us ih =>
    intro r0 r' h0 hd
    unfold drain at hd
    cases hfe : f c u with
    | error e => rw [hfe] at hd; cases hd
    | ok p =>
      rw [hfe] at hd
      refine ih _ _ (fun kv hkv => ?_) hd
      rcases Results.add_mem hkv with h' | h'
      · exact h0 kv h'
      · rw [h']; exact hf u p hfe

/-- A fetcher that never panics drains without a panic. -/
theorem drain_ok (f : fetcherM) (c : Nat) (hf : ∀ v, ∃ p, f c v = .ok p) :
    ∀ us r0, ∃ r', drain f c r0 us = .ok r' := by
  intro us
  induction us with
  | nil => exact fun r0 => ⟨r0, rfl⟩
  | cons u us ih =>
    intro r0
    rcases hf u with ⟨p, hp⟩
    rcases ih (r0.add p) with ⟨r', hr'⟩
    exact ⟨r', by unfold drain; rw [hp]; exact hr'⟩

/-- A panic coming out of the drain loop is a panic of some fetcher call. -/
theorem drain_error (f : fetcherM) (c : Nat) :
    ∀ us r0 e, drain f c r0 us = .error e → ∃ v, f c v = .error e := by
  intro us
  induction us with
  | nil => intro r0 e hd; cases hd
  | cons u us ih =>
    intro r0 e hd
    unfold drain at hd
    cases hfe : f c u with
    | error e' => rw [hfe] at hd; cases hd; exact ⟨u, hfe⟩
    | ok p => rw [hfe] at hd; exact ih _ _ hd

/-- If every collected payload has an error, the succeeded set is empty. -/
theorem finalOf_empty {r : Results} (h : ∀ kv ∈ r, (kv.2 : payload).err.isSome) :
    finalOf r = [] := by
  unfold finalOf
  have hf : r.filter (fun kv => kv.2.err.isNone) = [] := by
    refine List.filter_eq_nil_iff.2 (fun kv hkv hc => ?_)
    have h1 := h kv hkv
    rw [Option.isNone_iff_eq_none] at hc
    rw [hc] at h1
    cases h1
  rw [hf, List.map_nil]

/-- If no collected payload is a retryable failure, nothing is requeued. -/
theorem retryOf_empty {r : Results}
    (h : ∀ kv ∈ r, ¬((kv.2 : payload).err.isSome ∧ (kv.2 : payload).canRetry = true)) :
    retryOf r = [] := by
  unfold retryOf
  have hf : r.filter (fun kv => kv.2.err.isSome && kv.2.canRetry) = [] := by
    refine List.filter_eq_nil_iff.2 (fun kv hkv hc => ?_)
    rw [Bool.and_eq_true] at hc
    exact h kv hkv ⟨hc.1, hc.2⟩
  rw [hf, List.map_nil]

/-- The collapsed fetch can only return cycle count 1. -/
theorem fetch_ok_cycle (urls : List GoURL) (f : fetcherM) (r' : Results)
    (fin : List payload) (cyc : Nat) (h : fetch urls f = .ok (r', fin, cyc)) :
    cyc = 1 := by
  unfold fetch at h
  cases hd : drain f 1 [] urls with
  | error e => rw [hd] at h; cases h
  | ok r0 =>
    rw [hd] at h
    dsimp only at h
    by_cases hr : retryOf r0 = []
    · rw [if_pos hr] at h
      cases h
      rfl
    · rw [if_neg hr] at h
      cases h

/-! ### Classification lemmas for the fetchers -/

/-- The row loop only ever panics with an index-out-of-range. -/
theorem makeRows_error : ∀ (rows : List (List String)) (acc : List user) (nbad : Nat)
    (e : GoPanic), makeRows rows acc nbad = .error e → e = .indexOutOfRange := by
  intro rows
  induction rows with
  | nil => intro acc nbad e h; cases h
  | cons r rs ih =>
    intro acc nbad e h
    unfold makeRows at h
    split at h
    · split at h
      · exact ih _ _ _ h
      · split at h
        · exact ih _ _ _ h
        · exact ih _ _ _ h
    · cases h
      rfl

/-- No payload `makePayload` returns carries the retryable flag. -/
theorem makePayload_ok_canRetry (u : GoURL) (pr : Except String Rows) (p : payload)
    (h : makePayload u pr = .ok p) : p.canRetry = false := by
  unfold makePayload at h
  cases pr with
  | error e =>
    dsimp only at h
    cases h
    rfl
  | ok rows =>
    cases rows with
    | nil => cases h
    | cons hdr rest =>
      dsimp only at h
      by_cases hh : String.intercalate "," hdr ≠ "fname, lname, age"
      · rw [if_pos hh] at h
        cases h
        rfl
      · rw [if_neg hh] at h
        cases hm : makeRows rest [] 0 with
        | error e => rw [hm] at h; cases h
        | ok un =>
          rw [hm] at h
          cases un
          cases h
          rfl

/-- The only panic `makePayload` raises is an index-out-of-range. -/
theorem makePayload_error (u : GoURL) (pr : Except String Rows) (e : GoPanic)
    (h : makePayload u pr = .error e) : e = .indexOutOfRange := by
  unfold makePayload at h
  cases pr with
  | error e' => cases h
  | ok rows =>
    cases rows with
    | nil =>
      dsimp only at h
      cases h
      rfl
    | cons hdr rest =>
      dsimp only at h
      by_cases hh : String.intercalate "," hdr ≠ "fname, lname, age"
      · rw [if_pos hh] at h; cases h
      · rw [if_neg hh] at h
        cases hm : makeRows rest [] 0 with
        | error e' =>
          rw [hm] at h
          cases h
          exact makeRows_error rest [] 0 e hm
        | ok un => rw [hm] at h; cases un; cases h

/-- No payload `fileFetcher` returns carries the retryable flag. -/
theorem fileFetcher_ok_canRetry (u : GoURL) (fr : FileResult) (p : payload)
    (h : fileFetcher u fr = .ok p) : p.canRetry = false := by
  cases fr with
  | readFail e =>
    cases h
    rfl
  | ok csv => exact makePayload_ok_canRetry u csv p h

/-- No payload `httpFetcher` returns has both an error and the retryable flag
set: the retryable outcome (status ≥ 500) leaves `err` nil, every other
outcome leaves `canRetry` false. -/
theorem httpFetcher_ok_no_retryable_error (u : GoURL) (hr : HttpResult) (p : payload)
    (h : httpFetcher u hr = .ok p) : ¬(p.err.isSome ∧ p.canRetry = true) := by
  cases hr with
  | getFail e =>
    cases h
    rintro ⟨-, hc⟩
    cases hc
  | resp status body =>
    unfold httpFetcher at h
    dsimp only at h
    by_cases hs : status = 200
    · rw [if_pos hs] at h
      cases body with
      | fail e =>
        cases h
        rintro ⟨-, hc⟩
        cases hc
      | ok csv =>
        have := makePayload_ok_canRetry u csv p h
        rintro ⟨-, hc⟩
        rw [this] at hc
        cases hc
    · rw [if_neg hs] at h
      by_cases h5 : 500 ≤ status
      · rw [if_pos h5] at h
        cases h
        rintro ⟨he, -⟩
        cases he
      · rw [if_neg h5] at h
        cases h
        rintro ⟨-, hc⟩
        cases hc

/-- No payload `urlFetcher` returns has both an error and the retryable flag
set. -/
theorem urlFetcher_ok_no_retryable_error (u : GoURL) (w : World) (p : payload)
    (h : urlFetcher u w = .ok p) : ¬(p.err.isSome ∧ p.canRetry = true) := by
  unfold urlFetcher at h
  by_cases h1 : u.scheme = "file"
  · rw [if_pos h1] at h
    have := fileFetcher_ok_canRetry u w.file p h
    rintro ⟨-, hc⟩
    rw [this] at hc
    cases hc
  · rw [if_neg h1] at h
    by_cases h2 : u.scheme = "http"
    · rw [if_pos h2] at h
      exact httpFetcher_ok_no_retryable_error u w.http p h
    · rw [if_neg h2] at h
      cases h
      rintro ⟨-, hc⟩
      cases hc

/-- The only panic `fileFetcher` raises is the index-out-of-range of
`makePayload`. -/
theorem fileFetcher_error (u : GoURL) (fr : FileResult) (e : GoPanic)
    (h : fileFetcher u fr = .error e) : e = .indexOutOfRange := by
  cases fr with
  | readFail e' => cases h
  | ok csv => exact makePayload_error u csv e h

/-- The only panic `httpFetcher` raises is the index-out-of-range of
`makePayload`. -/
theorem httpFetcher_error (u : GoURL) (hr : HttpResult) (e : GoPanic)
    (h : httpFetcher u hr = .error e) : e = .indexOutOfRange := by
  cases hr with
  | getFail e' => cases h
  | resp status body =>
    unfold httpFetcher at h
    dsimp only at h
    by_cases hs : status = 200
    · rw [if_pos hs] at h
      cases body with
      | fail e' => cases h
      | ok csv => exact makePayload_error u csv e h
    · rw [if_neg hs] at h
      by_cases h5 : 500 ≤ status
      · rw [if_pos h5] at h; cases h
      · rw [if_neg h5] at h; cases h

/-- The only panic `urlFetcher` raises is the index-out-of-range of
`makePayload`. -/
theorem urlFetcher_error (u : GoURL) (w : World) (e : GoPanic)
    (h : urlFetcher u w = .error e) : e = .indexOutOfRange := by
  unfold urlFetcher at h
  by_cases h1 : u.scheme = "file"
  · rw [if_pos h1] at h
    exact fileFetcher_error u w.file e h
  · rw [if_neg h1] at h
    by_cases h2 : u.scheme = "http"
    · rw [if_pos h2] at h
      exact httpFetcher_error u w.http e h
    · rw [if_neg h2] at h
      cases h

/-! ### Claim C1: HTTP status ≥ 500 -/

/-- Claim C1.  The claim says a response with status ≥ 500 yields an outcome
with the error populated and the retryable flag set, which `fetch` then
requeues instead of counting as succeeded.  The code diverges: the 5xx branch
of `httpFetcher` (main.go line 114) sets `canRetry` but leaves `err` nil, so
`fetch`'s partition (line 196, `v.err == nil`) puts the outcome in the
succeeded set and never requeues it.  This theorem evaluates the code at the
failing input (a status-500 response): the outcome has `err = none` with
`canRetry = true`, and `fetch` returns it in the succeeded list after a
single cycle. -/
theorem C1_http500_not_requeued :
    httpFetcher uH (.resp 500 (.ok (.ok []))) = .ok (retryPayload uH) ∧
    (retryPayload uH).err = none ∧ (retryPayload uH).canRetry = true ∧
    fetch [uH] (fun _ u => httpFetcher u (.resp 500 (.ok (.ok [])))) =
      .ok ([(uH.str, retryPayload uH)], [retryPayload uH], 1) := by
  refine ⟨rfl, rfl, rfl, ?_⟩
  rfl

/-! ### Claim C2: retry cycling -/

/-- Claim C2.  The claim says a non-empty retryable set starts a fresh pool
generation fed exactly the retryable locators, so a source failing retryably
twice succeeds on its third cycle.  The code diverges: the work channel is
created once (main.go line 167) but closed at the end of every cycle (line
189), so the first send of the second cycle panics — the retry loop can never
complete a second cycle for any fetcher.  This theorem evaluates the code on
the claim's scenario (a fetcher failing retryably in cycles 1-2, succeeding
from cycle 3): both the collapsed `fetch` and the faithful fuel-indexed loop
abort with the send-on-closed-channel panic instead of retrying. -/
theorem C2_second_cycle_panics :
    fetch [uH] failTwiceFetcher = .error .sendOnClosedChannel ∧
    fetchLoop failTwiceFetcher 5 false [] [uH] 1 =
      some (.error .sendOnClosedChannel) := by
  constructor
  · rfl
  · rfl

/-! ### Claim C4: outcome invariant -/

/-- Claim C4.  The claim states the outcome invariant: exactly one of
{records populated, error empty} or {error populated} holds, and the
retryable flag is set only when the error is populated.  The code diverges in
the 5xx branch of `httpFetcher` (main.go line 114): the payload it produces
has `canRetry = true` while `err` is nil and `users` is empty, so the
retryable flag is set without a populated error.  This theorem evaluates that
branch at statuses 500 and 503. -/
theorem C4_invariant_violated_at_5xx :
    httpFetcher uH (.resp 500 (.ok (.ok [["x"]]))) = .ok (retryPayload uH) ∧
    httpFetcher uH (.resp 503 (.fail "boom")) = .ok (retryPayload uH) ∧
    (retryPayload uH).canRetry = true ∧
    (retryPayload uH).err = none ∧
    (retryPayload uH).users = [] := by
  exact ⟨rfl, rfl, rfl, rfl, rfl⟩

/-! ### Claim C7: collector keyed by source identity -/

/-- Claim C7.  The claim says the collector ends with exactly one outcome per
distinct processed source, each stored under the canonical string of the
locator it was produced for.  The code diverges for header-mismatch outcomes:
the payload built at main.go line 73 omits the `url` field, so it is stored
under the zero URL's canonical string `""` rather than the source's.  This
theorem evaluates `fetch` on two distinct file sources whose contents have
the malformed header `a,b,c`: the collector ends with a single entry keyed
`""` (the second write overwrote the first), not two entries keyed by the two
locators. -/
theorem C7_bad_header_key_collision :
    fetch [uF1, uF2] (fun _ u => urlFetcher u badHeaderWorld) =
      .ok ([("", { err := some "file://data/f2.csv does have proper CSV headers" })],
           [], 1) ∧
    uF1 ≠ uF2 ∧
    uF1.str = "file://data/f1.csv" ∧ uF2.str = "file://data/f2.csv" ∧
    GoURL.str ⟨"", "", ""⟩ = "" := by
  refine ⟨?_, by decide, rfl, rfl, rfl⟩
  rfl

/-! ### Claim C9: unguarded header indexing -/

/-- Claim C9.  `makePayload` indexes `p[0]` without a bounds check (main.go
line 72), so any byte input whose CSV parse succeeds with zero rows (for
example, empty input: `csv.ReadAll` returns an empty row slice and no error)
panics with an index-out-of-range instead of producing an error outcome;
totality of `makePayload` therefore requires the parsed CSV to have at least
one row. -/
theorem C9_empty_csv_panics (u : GoURL) :
    makePayload u (.ok []) = .error .indexOutOfRange ∧
    ∀ p : payload, makePayload u (.ok []) ≠ .ok p := by
  refine ⟨rfl, fun p h => ?_⟩
  cases h

/-- Witness for C9 at a concrete locator. -/
theorem C9_witness :
    makePayload uF1 (.ok []) = .error .indexOutOfRange ∧
    ∀ p : payload, makePayload uF1 (.ok []) ≠ .ok p :=
  C9_empty_csv_panics uF1

/-! ### Unfolding lemmas for summarize -/

/-- Value of `summarize` when the median index is in range. -/
theorem summarize_median_lt (u : List user)
    (hm : (u.length + 1) / 2 < u.length) :
    summarize u =
      { count := u.length,
        mean := some (Int.tdiv (u.map user.age).sum u.length),
        median := some ((List.insertionSort (· ≤ ·) (u.map user.age)).getD
          ((u.length + 1) / 2) 0),
        tied := u.filter (fun x =>
          x.age == (List.insertionSort (· ≤ ·) (u.map user.age)).getD
            ((u.length + 1) / 2) 0) } := by
  have hn : ¬(u.length = 0) := by omega
  have hlen : (List.insertionSort (· ≤ ·) (u.map user.age)).length = u.length := by
    rw [List.length_insertionSort, List.length_map]
  unfold summarize
  rw [if_neg hn]
  dsimp only
  rw [hlen, if_pos hm]

/-- Value of `summarize` when the median index is out of range (this includes
the single-record case). -/
theorem summarize_median_ge (u : List user) (h : u ≠ [])
    (hm : ¬((u.length + 1) / 2 < u.length)) :
    summarize u =
      { count := u.length,
        mean := some (Int.tdiv (u.map user.age).sum u.length) } := by
  have hn : ¬(u.length = 0) := by
    simpa [List.length_eq_zero] using h
  have hlen : (List.insertionSort (· ≤ ·) (u.map user.age)).length = u.length := by
    rw [List.length_insertionSort, List.length_map]
  unfold summarize
  rw [if_neg hn]
  dsimp only
  rw [hlen, if_neg hm]

/-- The mean `summarize` reports for a non-empty list, in both median
branches. -/
theorem summarize_mean (u : List user) (h : u ≠ []) :
    (summarize u).mean = some (Int.tdiv (u.map user.age).sum u.length) := by
  by_cases hm : (u.length + 1) / 2 < u.length
  · rw [summarize_median_lt u hm]
  · rw [summarize_median_ge u h hm]

/-- The ceiling of `n / 2` as the source computes it: `(n + 1) / 2` in
natural division. -/
theorem ceil_half (n : Nat) : Nat.ceil ((n : ℚ) / 2) = (n + 1) / 2 := by
  rcases Nat.even_or_odd n with ⟨k, hk⟩ | ⟨k, hk⟩
  · subst hk
    have h2 : ((k + k : ℕ) : ℚ) / 2 = (k : ℚ) := by push_cast; ring
    rw [h2, Nat.ceil_natCast]
    omega
  · subst hk
    have h2 : ((2 * k + 1 : ℕ) : ℚ) / 2 = (1 : ℚ) / 2 + (k : ℚ) := by push_cast; ring
    have h3 : Nat.ceil ((1 : ℚ) / 2) = 1 := by
      rw [Nat.ceil_eq_iff (by norm_num)]
      norm_num
    rw [h2, Nat.ceil_add_nat (by norm_num), h3]
    omega

/-! ### Claim C3: median rule -/

/-- Statement of claim C3 at one user list: with `n` the number of records
and `mid = ⌈n/2⌉`, the ages are sorted ascending, the median is reported as
the sorted age at 0-based index `mid` exactly when `mid < n` (together with
every record whose age equals it), and a single record yields no median. -/
def medianClaim (u : List user) : Prop :=
  let n := u.length
  let mid := Nat.ceil ((n : ℚ) / 2)
  let sorted := List.insertionSort (· ≤ ·) (u.map user.age)
  sorted.Perm (u.map user.age) ∧ List.Sorted (· ≤ ·) sorted ∧
    ((summarize u).median = if mid < n then some (sorted.getD mid 0) else none) ∧
    ((summarize u).tied =
      if mid < n then u.filter (fun x => x.age == sorted.getD mid 0) else []) ∧
    (n = 1 → (summarize u).median = none)

/-- Claim C3.  For every non-empty user list `summarize` sorts the ages
ascending, sets `mid = ⌈n/2⌉` (computed by the source as `(n+1)/2`), reports
the sorted age at 0-based index `mid` as the median iff `mid < n`, lists
every record whose age equals that value, and for `n = 1` (where `mid = 1` is
out of range) reports no median. -/
theorem C3_median_rule (u : List user) (h : u ≠ []) : medianClaim u := by
  unfold medianClaim
  dsimp only
  rw [ceil_half]
  refine ⟨List.perm_insertionSort _ _, List.sorted_insertionSort _ _, ?_, ?_, ?_⟩
  · by_cases hm : (u.length + 1) / 2 < u.length
    · rw [summarize_median_lt u hm, if_pos hm]
    · rw [summarize_median_ge u h hm, if_neg hm]
  · by_cases hm : (u.length + 1) / 2 < u.length
    · rw [summarize_median_lt u hm, if_pos hm]
    · rw [summarize_median_ge u h hm, if_neg hm]
  · intro h1
    have hm : ¬((u.length + 1) / 2 < u.length) := by omega
    rw [summarize_median_ge u h hm]

/-- Witness for C3 at the specification's own five-record example (ages
10, 20, 30, 30, 40). -/
theorem C3_witness :
    ([⟨"a", "b", 10⟩, ⟨"c", "d", 20⟩, ⟨"e", "f", 30⟩, ⟨"g", "h", 30⟩,
      ⟨"i", "j", 40⟩] : List user) ≠ [] ∧
    medianClaim [⟨"a", "b", 10⟩, ⟨"c", "d", 20⟩, ⟨"e", "f", 30⟩, ⟨"g", "h", 30⟩,
      ⟨"i", "j", 40⟩] :=
  ⟨by decide, C3_median_rule _ (by decide)⟩

/-! ### Claim C5: the mean -/

/-- Truncating division agrees with the rational floor on non-negative
numerators. -/
theorem tdiv_eq_floor_of_nonneg (t : Int) (n : Nat) (h0 : 0 ≤ t) :
    Int.tdiv t n = ⌊(t : ℚ) / (n : ℚ)⌋ := by
  rw [Int.tdiv_eq_ediv h0 (by positivity), Rat.floor_intCast_div_natCast]

/-- Two users with negative ages, for the C5 counterexample. -/
def negUsers : List user := [⟨"a", "b", -3⟩, ⟨"c", "d", -4⟩]

/-- Counterexample to claim C5 as stated: for ages `[-3, -4]` the code's mean
is `-3` (Go's float-to-int conversion truncates toward zero), while
`floor(sum / count) = floor(-7 / 2) = -4`, so the mean is not
`floor(sum / count)` on every non-empty user list. -/
theorem C5_counterexample :
    (negUsers.map user.age).sum = -7 ∧ negUsers.length = 2 ∧
    (summarize negUsers).mean = some (-3) ∧
    ⌊((-7 : ℚ)) / ((2 : ℕ) : ℚ)⌋ = -4 ∧
    (summarize negUsers).mean ≠
      some ⌊((negUsers.map user.age).sum : ℚ) / (negUsers.length : ℚ)⌋ := by
  refine ⟨by decide, by decide, by decide, by norm_num, ?_⟩
  have h1 : (summarize negUsers).mean = some (-3) := by decide
  have h2 : ⌊((negUsers.map user.age).sum : ℚ) / (negUsers.length : ℚ)⌋ = -4 := by
    norm_num [negUsers]
  rw [h1, h2]
  decide

/-- Claim C5 (amended).  For every non-empty user list the mean is the
truncation toward zero of `sum / count` (Go's `int(float64(t) / float64(n))`,
exact while the sum stays within float64's exact integer range); whenever the
sum of ages is non-negative — in particular on the specification's examples —
this coincides with `floor(sum / count)`. -/
theorem C5_mean_truncation (u : List user) (h : u ≠ []) :
    (summarize u).mean = some (Int.tdiv (u.map user.age).sum u.length) ∧
    (0 ≤ (u.map user.age).sum →
      (summarize u).mean = some ⌊((u.map user.age).sum : ℚ) / (u.length : ℚ)⌋) := by
  refine ⟨summarize_mean u h, fun h0 => ?_⟩
  rw [summarize_mean u h, tdiv_eq_floor_of_nonneg _ _ h0]

/-- Witness for C5 at the specification's example ages `[10, 20, 21]`
(sum 51, count 3, mean 17). -/
theorem C5_witness :
    ([⟨"a", "b", 10⟩, ⟨"c", "d", 20⟩, ⟨"e", "f", 21⟩] : List user) ≠ [] ∧
    ((summarize [⟨"a", "b", 10⟩, ⟨"c", "d", 20⟩, ⟨"e", "f", 21⟩]).mean =
        some (Int.tdiv (([⟨"a", "b", 10⟩, ⟨"c", "d", 20⟩, ⟨"e", "f", 21⟩] :
          List user).map user.age).sum 3) ∧
      (0 ≤ (([⟨"a", "b", 10⟩, ⟨"c", "d", 20⟩, ⟨"e", "f", 21⟩] :
          List user).map user.age).sum →
        (summarize [⟨"a", "b", 10⟩, ⟨"c", "d", 20⟩, ⟨"e", "f", 21⟩]).mean =
          some ⌊((([⟨"a", "b", 10⟩, ⟨"c", "d", 20⟩, ⟨"e", "f", 21⟩] :
            List user).map user.age).sum : ℚ) /
            (([⟨"a", "b", 10⟩, ⟨"c", "d", 20⟩, ⟨"e", "f", 21⟩] :
              List user).length : ℚ)⌋)) :=
  ⟨by decide, C5_mean_truncation _ (by decide)⟩

/-! ### Claim C6: row validation -/

/-- Drop condition of claim C6 for one data row: the trimmed age cell fails
integer parsing, or the trimmed first or last name is empty, or the age
equals zero. -/
def rowDrops (r : List String) : Bool :=
  match goAtoi (goTrimSpace (r.getD 2 "")) with
  | none => true
  | some age =>
    goTrimSpace (r.getD 0 "") == "" || goTrimSpace (r.getD 1 "") == "" || age == 0

/-- The user record a kept row contributes: its trimmed cells. -/
def rowUser (r : List String) : user :=
  ⟨goTrimSpace (r.getD 0 ""), goTrimSpace (r.getD 1 ""),
    (goAtoi (goTrimSpace (r.getD 2 ""))).getD 0⟩

/-- The row loop keeps exactly the rows that `rowDrops` rejects not, in
order, and counts the dropped ones.  The row-length hypothesis is the
`encoding/csv` contract: `csv.ReadAll` only succeeds when every record has as
many fields as the (three-field) header. -/
theorem makeRows_spec (rows : List (List String)) :
    (∀ r ∈ rows, r.length = 3) → ∀ (acc : List user) (nbad : Nat),
    makeRows rows acc nbad =
      .ok (acc ++ (rows.filter (fun r => !rowDrops r)).map rowUser,
           nbad + rows.countP rowDrops) := by
  induction rows with
  | nil =>
    intro _ acc nbad
    simp [makeRows]
  | cons r rs ih =>
    intro hlen acc nbad
    have h3 : r.length = 3 := hlen r (List.mem_cons_self r rs)
    obtain ⟨a, b, c, rfl⟩ : ∃ a b c, r = [a, b, c] := by
      match r, h3 with
      | [a, b, c], _ => exact ⟨a, b, c, rfl⟩
    have hrs := ih fun x hx => hlen x (List.mem_cons_of_mem _ hx)
    unfold makeRows
    dsimp only [List.map]
    cases hA : goAtoi (goTrimSpace c) with
    | none =>
      have hd : rowDrops [a, b, c] = true := by
        unfold rowDrops
        simp only [List.getD_cons_zero, List.getD_cons_succ]
        rw [hA]
      dsimp only
      rw [hrs, List.filter_cons_of_neg (by rw [hd]; decide),
        List.countP_cons_of_pos _ _ hd, Nat.add_assoc, Nat.add_comm 1]
    | some age =>
      dsimp only
      by_cases hbad : goTrimSpace a = "" ∨ goTrimSpace b = "" ∨ age = 0
      · have hd : rowDrops [a, b, c] = true := by
          unfold rowDrops
          simp only [List.getD_cons_zero, List.getD_cons_succ]
          rw [hA]
          simpa [or_assoc] using hbad
        rw [if_pos hbad, hrs, List.filter_cons_of_neg (by rw [hd]; decide),
          List.countP_cons_of_pos _ _ hd, Nat.add_assoc, Nat.add_comm 1]
      · have hd : rowDrops [a, b, c] = false := by
          unfold rowDrops
          simp only [List.getD_cons_zero, List.getD_cons_succ]
          rw [hA]
          simpa [and_assoc] using hbad
        have hu : rowUser [a, b, c] = ⟨goTrimSpace a, goTrimSpace b, age⟩ := by
          unfold rowUser
          simp only [List.getD_cons_zero, List.getD_cons_succ]
          rw [hA]
          rfl
        rw [if_neg hbad, hrs, List.filter_cons_of_pos (by rw [hd]; decide),
          List.map_cons, hu, List.countP_cons_of_neg _ _ (by rw [hd]; decide)]
        simp [List.append_assoc]

/-- Claim C6.  For every parsed CSV input whose header is the three-field
parse of the exact line `fname, lname, age` (all data rows then carry three
fields, by the `encoding/csv` uniform-field-count contract), `makePayload`
drops a data row — counting it as skipped and excluding it from the records —
if and only if the trimmed age cell fails integer parsing, or the trimmed
first or last name is empty, or the age equals zero; all other rows are
retained as records, in order, with their trimmed cells. -/
theorem C6_row_filtering (u : GoURL) (rows : List (List String))
    (hlen : ∀ r ∈ rows, r.length = 3) :
    makePayload u (.ok (["fname", " lname", " age"] :: rows)) =
      .ok { url := u,
            users := (rows.filter (fun r => !rowDrops r)).map rowUser,
            numBad := rows.countP rowDrops } := by
  unfold makePayload
  dsimp only
  rw [if_neg (by decide), makeRows_spec rows hlen [] 0]
  dsimp only
  rw [List.nil_append, Nat.zero_add]

/-- Witness for C6 at a four-row input: the row ` Ann , Lee, 30 ` is kept
(trimmed), while a non-numeric age, an empty first name, and a zero age are
each dropped. -/
theorem C6_witness :
    (∀ r ∈ ([[" Ann ", "Lee", " 30 "], ["Bob", "Ng", "x"], ["", "Q", "5"],
      ["Cy", "Di", "0"]] : List (List String)), r.length = 3) ∧
    makePayload uF1 (.ok (["fname", " lname", " age"] ::
        [[" Ann ", "Lee", " 30 "], ["Bob", "Ng", "x"], ["", "Q", "5"],
         ["Cy", "Di", "0"]])) =
      .ok { url := uF1,
            users := (([[" Ann ", "Lee", " 30 "], ["Bob", "Ng", "x"], ["", "Q", "5"],
              ["Cy", "Di", "0"]] : List (List String)).filter
                (fun r => !rowDrops r)).map rowUser,
            numBad := ([[" Ann ", "Lee", " 30 "], ["Bob", "Ng", "x"], ["", "Q", "5"],
              ["Cy", "Di", "0"]] : List (List String)).countP rowDrops } :=
  ⟨by decide, C6_row_filtering uF1 _ (by decide)⟩

/-! ### Claim C8: fatal header errors -/

/-- A fetcher that fails fatally (never retryably) on every source, as every
bad-header source does. -/
def fatalFetcher : fetcherM := fun _ v => .ok { url := v, err := some "fatal" }

/-- Claim C8.  Any parsed CSV whose first row does not join to the exact
header `fname, lname, age` makes `makePayload` return a fatal parse-error
outcome (error set, retryable flag clear; per the source's line-73 quirk the
payload's url is the zero URL).  Moreover, for any fetcher that returns only
such fatal outcomes, `fetch` returns normally after one cycle with an empty
succeeded set: fatal outcomes are excluded and nothing is requeued. -/
theorem C8_fatal_header_normal_return
    (u : GoURL) (hdr : List String) (rows : List (List String))
    (hh : String.intercalate "," hdr ≠ "fname, lname, age")
    (urls : List GoURL) (f : fetcherM)
    (hf : ∀ c v, ∃ p, f c v = .ok p ∧ p.err.isSome ∧ p.canRetry = false) :
    (makePayload u (.ok (hdr :: rows)) =
        .ok { err := some (u.str ++ " does have proper CSV headers") } ∧
      ({ err := some (u.str ++ " does have proper CSV headers") } : payload).canRetry
        = false) ∧
    ∃ r', fetch urls f = .ok (r', [], 1) := by
  constructor
  · constructor
    · unfold makePayload
      dsimp only
      rw [if_pos hh]
    · rfl
  · obtain ⟨r', hr'⟩ := drain_ok f 1 (fun v => (hf 1 v).imp fun p hp => hp.1) urls []
    have hQ : ∀ kv ∈ r', (kv.2 : payload).err.isSome ∧ (kv.2 : payload).canRetry = false := by
      refine drain_invariant (fun p => p.err.isSome ∧ p.canRetry = false) f 1
        (fun v p hvp => ?_) urls [] r' (fun kv hkv => by cases hkv) hr'
      obtain ⟨p', hp', he, hc⟩ := hf 1 v
      rw [hvp] at hp'
      cases hp'
      exact ⟨he, hc⟩
    have hfin : finalOf r' = [] := finalOf_empty fun kv hkv => (hQ kv hkv).1
    have hret : retryOf r' = [] := by
      refine retryOf_empty fun kv hkv => ?_
      rintro ⟨-, hc⟩
      rw [(hQ kv hkv).2] at hc
      cases hc
    refine ⟨r', ?_⟩
    unfold fetch
    rw [hr']
    dsimp only
    rw [if_pos hret, hfin]

/-- Witness for C8: the malformed header `a,b,c` on a concrete source, and a
one-source fetch under the all-fatal fetcher. -/
theorem C8_witness :
    (String.intercalate "," ["a", "b", "c"] ≠ "fname, lname, age") ∧
    ((makePayload uF1 (.ok (["a", "b", "c"] :: [])) =
        .ok { err := some (uF1.str ++ " does have proper CSV headers") } ∧
      ({ err := some (uF1.str ++ " does have proper CSV headers") } : payload).canRetry
        = false) ∧
    ∃ r', fetch [uF1] fatalFetcher = .ok (r', [], 1)) :=
  ⟨by decide,
    C8_fatal_header_normal_return uF1 ["a", "b", "c"] [] (by decide) [uF1]
      fatalFetcher (fun c v => ⟨{ url := v, err := some "fatal" }, rfl, rfl, rfl⟩)⟩

/-! ### Claim C10: urlFetcher never triggers the requeue branch -/

/-- Counterexample to claim C10 as stated: `fetch` under `urlFetcher` does
not always complete — on a file source whose CSV parse succeeds with zero
rows, the worker panics (claim C9's index-out-of-range) and the process
aborts instead of completing a cycle. -/
theorem C10_counterexample :
    fetch [uF1] (fun _ v => urlFetcher v emptyCsvWorld) =
      .error .indexOutOfRange := by
  rfl

/-- Claim C10 (amended).  Every outcome `urlFetcher` returns has `err` and
`canRetry` never both set; consequently the requeue branch of `fetch` is
never taken under `urlFetcher` — the closed-channel panic of the second cycle
cannot be reached — and whenever `fetch` returns it has completed exactly one
pool cycle.  (It may instead abort on the zero-row panic of claim C9, which
is why "always completes" needed amending.)  The worlds `ws` supply the
outcome of each cycle's external HTTP/file accesses per locator. -/
theorem C10_single_cycle (ws : Nat → GoURL → World) (urls : List GoURL) :
    (∀ c v p, urlFetcher v (ws c v) = .ok p → ¬(p.err.isSome ∧ p.canRetry = true)) ∧
    fetch urls (fun c v => urlFetcher v (ws c v)) ≠ .error .sendOnClosedChannel ∧
    (∀ r' fin cyc, fetch urls (fun c v => urlFetcher v (ws c v)) = .ok (r', fin, cyc) →
      cyc = 1) := by
  refine ⟨fun c v p => urlFetcher_ok_no_retryable_error v (ws c v) p, ?_,
    fun r' fin cyc => fetch_ok_cycle urls _ r' fin cyc⟩
  unfold fetch
  cases hd : drain (fun c v => urlFetcher v (ws c v)) 1 [] urls with
  | error e =>
    obtain ⟨v, hv⟩ := drain_error _ 1 urls [] e hd
    have he : e = .indexOutOfRange := urlFetcher_error v (ws 1 v) e hv
    subst he
    intro hc
    cases hc
  | ok r' =>
    have hret : retryOf r' = [] := by
      refine retryOf_empty fun kv hkv => ?_
      exact drain_invariant (fun p => ¬(p.err.isSome ∧ p.canRetry = true)) _ 1
        (fun v p hvp => urlFetcher_ok_no_retryable_error v (ws 1 v) p hvp) urls [] r'
        (fun kv hkv => by cases hkv) hd kv hkv
    dsimp only
    rw [if_pos hret]
    intro hc
    cases hc

/-- A world with both transports failing fatally, for the C10 witness. -/
def downWorld : Nat → GoURL → World := fun _ _ => ⟨.getFail "down", .readFail "missing"⟩

/-- Witness for C10 (amended) at two concrete locators under fatal-transport
worlds. -/
theorem C10_witness :
    (∀ c v p, urlFetcher v (downWorld c v) = .ok p →
      ¬(p.err.isSome ∧ p.canRetry = true)) ∧
    fetch [uF1, uH] (fun c v => urlFetcher v (downWorld c v)) ≠
      .error .sendOnClosedChannel ∧
    (∀ r' fin cyc, fetch [uF1, uH] (fun c v => urlFetcher v (downWorld c v)) =
        .ok (r', fin, cyc) → cyc = 1) :=
  C10_single_cycle downWorld [uF1, uH]

end Summary
